import Mathlib

/-!
Verification of the real-time messaging subsystem of the socratic-ui backend:
the rate limiter (`rate_limiter.py`), the Redis pub/sub and presence manager
(`redis_pubsub.py`), the websocket connection manager (`websocket_auth.py`)
and the websocket message router (`handle_websocket_message` in `main.py`).

Timestamps (Python float seconds) are modelled as rationals; Redis data
structures are modelled by their observable contents: a sorted set of
timestamped members as a duplicate-free list of scores, a hash bucket as an
optional pair, a counter as a natural number, and keys with a TTL as entries
carrying their expiry time.
-/

namespace Socratic

/-! ## Rate limiter (`rate_limiter.py`) -/

/-- The info dictionary built by each `_check_*` helper: `limit`, `remaining`
and `retry_after` (the `reset_time` field is a formatted wall-clock string that
no caller consumes and is not modelled). -/
structure RLInfo where
  limit : Nat
  remaining : Nat
  retryAfter : Option ℚ
deriving Repr, DecidableEq

/-- The rate limiting algorithm selected by `RateLimitRule.limit_type`.  The
four calendar-aligned fixed windows (`PER_SECOND` .. `PER_DAY`) are collapsed
into `fixedWindow` with their window length in seconds. -/
inductive Algo
  | slidingWindow
  | tokenBucket
  | fixedWindow (windowSeconds : Nat)
deriving Repr, DecidableEq

/-- A `RateLimitRule`: limit, window in seconds, algorithm, burst limit
(defaulted to `limit` by the constructor when not given) and the key produced
by `key_func` for the request being checked. -/
structure RateLimitRule where
  limit : Nat
  window : ℚ
  algo : Algo
  burstLimit : Nat
  key : String
deriving Repr, DecidableEq

/-- Survival predicate of `zremrangebyscore(key, 0, now - window)`: a member
with score `t` is removed iff `0 ≤ t ≤ now - window`, so it survives iff it is
negative or strictly newer than `now - window`. -/
def swKeep (now window t : ℚ) : Bool :=
  decide (t < 0) || decide (now - window < t)

/-- One `_check_sliding_window` call on the sorted set `s` at time `now`:
purge old entries, count the remainder (`zcard` runs before the `zadd`), add
the member `str(now)` (a duplicate score collapses onto the existing member),
allow iff the count is strictly below the limit.  Returns
(allowed, info, new sorted-set contents). -/
def checkSlidingWindow (limit : Nat) (window : ℚ) (s : List ℚ) (now : ℚ) :
    Bool × RLInfo × List ℚ :=
  let purged := s.filter (swKeep now window)
  let count := purged.length
  let s' := if now ∈ purged then purged else purged ++ [now]
  (decide (count < limit),
   { limit := limit
     remaining := limit - count - 1
     retryAfter := if count < limit then none else some window },
   s')

/-- One `_check_token_bucket` call.  The bucket is `none` when the Redis hash
is absent.  The third component is the `hset` write performed, if any: the
denied branch returns without writing, so it yields `none`. -/
def checkTokenBucket (limit : Nat) (window : ℚ) (burst : Nat)
    (bucket : Option (ℚ × ℚ)) (now : ℚ) : Bool × RLInfo × Option (ℚ × ℚ) :=
  match bucket with
  | none =>
      let tokens : ℚ := (burst : ℚ) - 1
      if 0 ≤ tokens then
        (true,
         { limit := limit, remaining := tokens.floor.toNat, retryAfter := none },
         some (tokens, now))
      else
        (false,
         { limit := limit, remaining := 0
           retryAfter := some (((1 - tokens) / ((limit : ℚ) / window)).floor : ℤ) },
         none)
  | some (tk, lastRefill) =>
      let tokens := min (burst : ℚ) (tk + (now - lastRefill) * ((limit : ℚ) / window)) - 1
      if 0 ≤ tokens then
        (true,
         { limit := limit, remaining := tokens.floor.toNat, retryAfter := none },
         some (tokens, now))
      else
        (false,
         { limit := limit, remaining := 0
           retryAfter := some (((1 - tokens) / ((limit : ℚ) / window)).floor : ℤ) },
         none)

/-- One `_check_fixed_window` call on the current calendar bucket whose counter
is `c`: `incr` first, then allow iff the incremented count is `≤ limit`. -/
def checkFixedWindow (limit : Nat) (windowSeconds : Nat) (c : Nat) :
    Bool × RLInfo × Nat :=
  let c' := c + 1
  (decide (c' ≤ limit),
   { limit := limit
     remaining := limit - c'
     retryAfter := if limit < c' then some (windowSeconds : ℚ) else none },
   c')

/-- The persisted state behind one rate-limit key. -/
inductive AlgState
  | sw (events : List ℚ)
  | tb (tokens lastRefill : ℚ)
  | fw (count : Nat)
deriving Repr, DecidableEq

/-- The Redis key space seen by the rate limiter. -/
abbrev Store : Type := String → Option AlgState

/-- Write one key. -/
def Store.update (st : Store) (k : String) (v : AlgState) : Store :=
  fun k' => if k' = k then some v else st k'

/-- An absent key reads as an empty sorted set. -/
def getSW : Option AlgState → List ℚ
  | some (.sw l) => l
  | _ => []

/-- An absent key reads as an absent bucket hash. -/
def getTB : Option AlgState → Option (ℚ × ℚ)
  | some (.tb t l) => some (t, l)
  | _ => none

/-- An absent key reads as a zero counter. -/
def getFW : Option AlgState → Nat
  | some (.fw c) => c
  | _ => 0

/-- The calendar bucket key used by `_check_fixed_window`
(`key:{bucket index}`). -/
def fwBucketKey (k : String) (windowSeconds : Nat) (now : ℚ) : String :=
  k ++ ":" ++ toString (now / (windowSeconds : ℚ)).floor

/-- Evaluate one rule against the store at time `now`, per the dispatch in
`check_rate_limit`.  A denied token-bucket check performs no write, so the
store is returned unchanged in that case. -/
def evalRule (now : ℚ) (r : RateLimitRule) (st : Store) : Bool × RLInfo × Store :=
  match r.algo with
  | .slidingWindow =>
      let res := checkSlidingWindow r.limit r.window (getSW (st r.key)) now
      (res.1, res.2.1, st.update r.key (.sw res.2.2))
  | .tokenBucket =>
      let res := checkTokenBucket r.limit r.window r.burstLimit (getTB (st r.key)) now
      (res.1, res.2.1,
       match res.2.2 with
       | some (tk, lr) => st.update r.key (.tb tk lr)
       | none => st)
  | .fixedWindow ws =>
      let k := fwBucketKey r.key ws now
      let res := checkFixedWindow r.limit ws (getFW (st k))
      (res.1, res.2.1, st.update k (.fw res.2.2))

/-- The initial `rate_limit_info` accumulator of `check_rate_limit`. -/
def initialInfo : RLInfo :=
  { limit := 0, remaining := 0, retryAfter := none }

/-- The accumulator update of `check_rate_limit` for an allowed rule: replace
the tracked info when the new `remaining` is strictly smaller or the tracked
`remaining` is zero. -/
def mergeInfo (acc info : RLInfo) : RLInfo :=
  if info.remaining < acc.remaining ∨ acc.remaining = 0 then info else acc

/-- The rule loop of `check_rate_limit`: rules are evaluated in order; the
first denial returns immediately with that rule's info (the dict update sets
`allowed` to false and copies the rule's fields); when every rule allows, the
merged accumulator is returned. -/
def checkRulesAux (now : ℚ) : List RateLimitRule → Store → RLInfo → (Bool × RLInfo) × Store
  | [], st, acc => ((true, acc), st)
  | r :: rs, st, acc =>
      let e := evalRule now r st
      if e.1 then checkRulesAux now rs e.2.2 (mergeInfo acc e.2.1)
      else ((false, e.2.1), e.2.2)

/-- `check_rate_limit` for an endpoint whose configured rules are `rules`. -/
def checkRateLimit (rules : List RateLimitRule) (st : Store) (now : ℚ) :
    (Bool × RLInfo) × Store :=
  checkRulesAux now rules st initialInfo

/-- The allowed-only prefix of the rule loop: `some (store, acc)` when every
rule in the list allows, `none` as soon as one denies. -/
def allowRun (now : ℚ) : List RateLimitRule → Store → RLInfo → Option (Store × RLInfo)
  | [], st, acc => some (st, acc)
  | r :: rs, st, acc =>
      let e := evalRule now r st
      if e.1 then allowRun now rs e.2.2 (mergeInfo acc e.2.1) else none

/-- Run a sequence of sliding-window checks on one key, threading the sorted
set, and record each check time with its decision. -/
def swRun (limit : Nat) (window : ℚ) : List ℚ → List ℚ → List (ℚ × Bool)
  | _, [] => []
  | s, t :: ts =>
      let r := checkSlidingWindow limit window s t
      (t, r.1) :: swRun limit window r.2.2 ts

/-- Number of allowed checks whose timestamp lies in the half-open span
`[a, a + W)`. -/
def spanCount (a W : ℚ) (ps : List (ℚ × Bool)) : Nat :=
  ps.countP fun p => p.2 && decide (a ≤ p.1) && decide (p.1 < a + W)

/-- Number of allowed checks whose timestamp lies in the closed span
`[a, a + W]`. -/
def spanCountClosed (a W : ℚ) (ps : List (ℚ × Bool)) : Nat :=
  ps.countP fun p => p.2 && decide (a ≤ p.1) && decide (p.1 ≤ a + W)

/-- One token-bucket check together with the resulting bucket state (the old
state when the check wrote nothing). -/
def tbStep (limit : Nat) (window : ℚ) (burst : Nat) (s : Option (ℚ × ℚ))
    (now : ℚ) : Bool × Option (ℚ × ℚ) :=
  let r := checkTokenBucket limit window burst s now
  (r.1, match r.2.2 with
        | some b => some b
        | none => s)

/-- Run a sequence of token-bucket checks on one key, returning the decisions
and the final bucket state. -/
def tbRun (limit : Nat) (window : ℚ) (burst : Nat) :
    Option (ℚ × ℚ) → List ℚ → List Bool × Option (ℚ × ℚ)
  | s, [] => ([], s)
  | s, t :: ts =>
      let r := tbStep limit window burst s t
      let rest := tbRun limit window burst r.2 ts
      (r.1 :: rest.1, rest.2)

/-! ## Redis pub/sub subscriptions and fan-out (`redis_pubsub.py`) -/

/-- The in-process subscription map `RedisPubSubManager.subscriptions`:
channel name to the ordered list of registered callbacks.  A callback is
identified by the connection id whose websocket the registered lambda closes
over. -/
abbrev Subscriptions : Type := List (String × List String)

/-- `subscribe_to_channel`: append the callback to the channel's list,
creating the list on first subscribe. -/
def subscribeToChannel (subs : Subscriptions) (channel cb : String) : Subscriptions :=
  match subs.lookup channel with
  | none => subs ++ [(channel, [cb])]
  | some _ => subs.map fun p => if p.1 = channel then (p.1, p.2 ++ [cb]) else p

/-- One callback invocation attempted by the fan-out loop: the callback, the
channel and payload it was called with, and whether it returned without
raising. -/
structure Invocation where
  callback : String
  channel : String
  payload : String
  ok : Bool
deriving Repr, DecidableEq

/-- The fan-out loop body of `listen_for_messages`: invoke each callback in
list order inside `try/except`, so a raising callback is logged and the loop
continues with the rest. -/
def invokeCallbacks (fails : String → Bool) (channel payload : String) :
    List String → List Invocation
  | [] => []
  | cb :: rest =>
      { callback := cb, channel := channel, payload := payload, ok := !fails cb } ::
      invokeCallbacks fails channel payload rest

/-- Handling of one delivered pub/sub message in `listen_for_messages`:
look up the channel's callbacks and invoke them all; the subscription map is
never modified by delivery. -/
def listenMessageStep (subs : Subscriptions) (fails : String → Bool)
    (channel payload : String) : List Invocation × Subscriptions :=
  match subs.lookup channel with
  | none => ([], subs)
  | some cbs => (invokeCallbacks fails channel payload cbs, subs)

/-! ## Presence heartbeats (`redis_pubsub.py`) -/

/-- The heartbeat key space: one entry per wallet holding the stored
timestamp (the `isoformat` value) and the key's Redis expiry time. -/
abbrev Heartbeats : Type := List (String × ℚ × ℚ)

/-- `set_user_heartbeat`: `setex("heartbeat:{wallet}", 60, now)` — store the
current time under the wallet's key with a 60 second TTL. -/
def setUserHeartbeat (hb : Heartbeats) (wallet : String) (now : ℚ) : Heartbeats :=
  (wallet, now, now + 60) :: hb.filter fun e => e.1 ≠ wallet

/-- A key is visible at time `now` iff its TTL has not elapsed. -/
def aliveAt (now : ℚ) (e : String × ℚ × ℚ) : Bool :=
  decide (now < e.2.2)

/-- `get_online_users`: the wallets of all live heartbeat keys. -/
def getOnlineUsers (hb : Heartbeats) (now : ℚ) : List String :=
  (hb.filter (aliveAt now)).map fun e => e.1

/-- One sweep of `_heartbeat_monitor` at time `now`: among the live keys,
delete those whose stored timestamp is more than 2 minutes old and emit a
`user_status` notification for each, with `is_online := false` and
`last_seen := now` (the sweep's `current_time`, not the stored heartbeat).
Returns the surviving entries and the emitted notifications. -/
def heartbeatSweep (hb : Heartbeats) (now : ℚ) :
    Heartbeats × List (String × Bool × ℚ) :=
  let live := hb.filter (aliveAt now)
  let expired := live.filter fun e => decide (now - e.2.1 > 120)
  (live.filter fun e => ¬ decide (now - e.2.1 > 120),
   expired.map fun e => (e.1, false, now))

/-! ## Websocket connection manager (`websocket_auth.py`) -/

/-- The verified principal attached to a connection: wallet address and the
NFT-holdings attribute snapshot taken at authentication time. -/
structure ConnData where
  wallet : String
  nftHoldings : List String
deriving Repr, DecidableEq

/-- The joint in-process state touched by a connection's lifecycle:
`WebSocketAuthManager.authenticated_connections`, and
`RedisPubSubManager.subscriptions` holding the callbacks the connection's
`join_room` handling registered. -/
structure WsState where
  conns : List (String × ConnData)
  subs : Subscriptions
deriving Repr, DecidableEq

/-- `add_connection`: insert the connection record under its id. -/
def addConnection (s : WsState) (cid : String) (cd : ConnData) : WsState :=
  { s with conns := (cid, cd) :: s.conns.filter fun p => p.1 ≠ cid }

/-- The subscription registered for a connection by the `join_room` handler:
append its callback to the room channel's subscriber list. -/
def joinSubscribe (s : WsState) (channel cid : String) : WsState :=
  { s with subs := subscribeToChannel s.subs channel cid }

/-- `remove_connection` (invoked from the `finally` block of
`authenticated_websocket_chat` when the transport closes): delete the
connection's registry entry.  Nothing else is touched. -/
def removeConnection (s : WsState) (cid : String) : WsState :=
  { s with conns := s.conns.filter fun p => p.1 ≠ cid }

/-- `get_connections_by_wallet`. -/
def getConnectionsByWallet (s : WsState) (wallet : String) : List (String × ConnData) :=
  s.conns.filter fun p => p.2.wallet = wallet

/-- The callbacks registered under a channel. -/
def channelSubscribers (s : WsState) (channel : String) : List String :=
  (s.subs.lookup channel).getD []

/-! ## Websocket message router (`handle_websocket_message` in `main.py`) -/

/-- A `ChatRoom` row as consulted by the router. -/
structure ChatRoom where
  id : Nat
  roomType : String
  requiredNfts : List String
  name : String
deriving Repr, DecidableEq

/-- A `RoomMember` row as consulted by the router. -/
structure RoomMember where
  roomId : Nat
  wallet : String
  canSendMessages : Bool
deriving Repr, DecidableEq

/-- The database tables the router reads. -/
structure Db where
  rooms : List ChatRoom
  members : List RoomMember
deriving Repr, DecidableEq

/-- An inbound frame after JSON decoding, classified by its `type` field.
`none` ids and empty strings stand for the fields Python treats as falsy. -/
inductive Frame
  | heartbeat
  | joinRoom (roomId : Option Nat)
  | roomMessage (roomId : Option Nat) (content : String)
  | privateMessage (target : Option String) (content : String)
  | getOnline
  | stats
  | unknown (t : String)
deriving Repr, DecidableEq

/-- An outbound frame sent over a websocket. -/
inductive OutMsg
  | heartbeatAck (wallet : String)
  | errRoomIdRequired
  | errRoomNotFound
  | errAccessDenied (required : List String)
  | errRoomMessageFields
  | errNotAuthorized
  | errPrivateMessageFields
  | errUnknownType (t : String)
  | roomJoined (roomId : Nat) (roomName : String) (recent : List String)
  | privateMessageOut (fromWallet content : String)
  | messageSent (target : String)
  | onlineUsersMsg (users : List String)
  | statsMsg (totalConnections onlineCount : Nat)
deriving Repr, DecidableEq

/-- One observable side effect performed while handling a frame, in program
order.  `rateLimitCheck` is the event a rate-limit consultation would be; the
router never produces it. -/
inductive Effect
  | heartbeatRefresh (wallet : String)
  | reply (m : OutMsg)
  | rateLimitCheck (action : String)
  | dbAddMember (roomId : Nat) (wallet : String)
  | dbAddChatMessage (roomId : Nat) (wallet content : String)
  | dbAddPrivateMessage (sender recipient content : String)
  | dbUpdateMemberStats (roomId : Nat) (wallet : String)
  | subscribeChannel (channel cid : String)
  | cacheStore (roomId : Nat) (content : String)
  | publish (channel content : String)
  | broadcastToWallet (wallet : String) (m : OutMsg)
  | aiTrigger (roomId : Nat) (content : String)
deriving Repr, DecidableEq

/-- Room lookup, `db.query(ChatRoom).filter(ChatRoom.id == room_id).first()`. -/
def findRoom (db : Db) (n : Nat) : Option ChatRoom :=
  db.rooms.find? fun r => r.id == n

/-- Membership lookup on (room, wallet). -/
def findMember (db : Db) (n : Nat) (w : String) : Option RoomMember :=
  db.members.find? fun m => m.roomId == n && m.wallet == w

/-- The effects of a `join_room` frame once access is granted: insert a
membership row when absent, subscribe the connection's callback to the room
channel, and reply with `room_joined` carrying the cached recent messages. -/
def joinRoomBody (db : Db) (cache : Nat → List String) (cid : String)
    (user : ConnData) (n : Nat) (room : ChatRoom) : List Effect :=
  (match findMember db n user.wallet with
   | none => [Effect.dbAddMember n user.wallet]
   | some _ => []) ++
  [Effect.subscribeChannel ("room:" ++ toString n) cid,
   Effect.reply (.roomJoined n room.name (cache n))]

/-- Dispatch on the declared frame type, mirroring the `if/elif` chain of
`handle_websocket_message`.  `online` is the heartbeat-derived online list
consulted by `get_online_users` and `stats`.  The Python truthiness tests
(`if not room_id`, `if not content`, ...) are the `none`/zero/empty-string
cases. -/
def handleFrame (reg : List (String × ConnData)) (db : Db)
    (cache : Nat → List String) (online : List String) (cid : String)
    (user : ConnData) : Frame → List Effect
  | .heartbeat => [.reply (.heartbeatAck user.wallet)]
  | .joinRoom none => [.reply .errRoomIdRequired]
  | .joinRoom (some n) =>
      if n = 0 then [.reply .errRoomIdRequired]
      else match findRoom db n with
      | none => [.reply .errRoomNotFound]
      | some room =>
        if room.roomType = "nft_gated" ∧ room.requiredNfts ≠ [] then
          if room.requiredNfts.any (fun nft => user.nftHoldings.contains nft) then
            joinRoomBody db cache cid user n room
          else [.reply (.errAccessDenied room.requiredNfts)]
        else joinRoomBody db cache cid user n room
  | .roomMessage none _ => [.reply .errRoomMessageFields]
  | .roomMessage (some n) content =>
      if n = 0 ∨ content = "" then [.reply .errRoomMessageFields]
      else match findMember db n user.wallet with
      | none => [.reply .errNotAuthorized]
      | some m =>
        if m.canSendMessages then
          [.dbAddChatMessage n user.wallet content,
           .cacheStore n content,
           .publish ("room:" ++ toString n) content,
           .dbUpdateMemberStats n user.wallet,
           .aiTrigger n content]
        else [.reply .errNotAuthorized]
  | .privateMessage none _ => [.reply .errPrivateMessageFields]
  | .privateMessage (some tw) content =>
      if tw = "" ∨ content = "" then [.reply .errPrivateMessageFields]
      else
        [.dbAddPrivateMessage user.wallet tw content,
         .broadcastToWallet tw (.privateMessageOut user.wallet content),
         .reply (.messageSent tw)]
  | .getOnline => [.reply (.onlineUsersMsg online)]
  | .stats => [.reply (.statsMsg reg.length online.length)]
  | .unknown t => [.reply (.errUnknownType t)]

/-- `handle_websocket_message`: look up the connection (returning silently
when it is gone), refresh the wallet's presence heartbeat, then dispatch on
the frame type. -/
def handleWebsocketMessage (reg : List (String × ConnData)) (db : Db)
    (cache : Nat → List String) (online : List String) (cid : String)
    (user : ConnData) (f : Frame) : List Effect :=
  match reg.lookup cid with
  | none => []
  | some _ => Effect.heartbeatRefresh user.wallet :: handleFrame reg db cache online cid user f

/-! ## Helper lemmas -/

/-- Looking up a key in an association list from which every pair with that
key was filtered out yields nothing. -/
theorem lookup_filter_ne_eq_none (l : List (String × ConnData)) (cid : String) :
    (l.filter fun p => p.1 ≠ cid).lookup cid = none := by
  induction l with
  | nil => rfl
  | cons p l ih =>
      rw [List.filter_cons]
      by_cases h : p.1 = cid
      · rw [if_neg (by simp [h])]
        exact ih
      · rw [if_pos (by simp [h])]
        rw [List.lookup]
        have hne : (cid == p.1) = false := by simp [Ne.symm h]
        rw [hne]
        exact ih

/-- Reading a key that holds a sorted set yields its contents. -/
theorem getSW_some_sw (l : List ℚ) : getSW (some (AlgState.sw l)) = l := rfl

/-- The fan-out loop invokes exactly the listed callbacks, in order, each with
the delivered channel and payload. -/
theorem invokeCallbacks_eq_map (fails : String → Bool) (ch payload : String)
    (cbs : List String) :
    invokeCallbacks fails ch payload cbs =
      cbs.map fun cb =>
        { callback := cb, channel := ch, payload := payload, ok := !fails cb } := by
  induction cbs with
  | nil => rfl
  | cons cb rest ih => simp [invokeCallbacks, ih]

/-- `joinRoomBody` contains no rate-limit consultation. -/
theorem rateLimitCheck_not_mem_joinRoomBody (db : Db) (cache : Nat → List String)
    (cid : String) (user : ConnData) (n : Nat) (room : ChatRoom) (a : String) :
    Effect.rateLimitCheck a ∉ joinRoomBody db cache cid user n room := by
  unfold joinRoomBody
  cases findMember db n user.wallet <;> simp

/-- No branch of the frame dispatch contains a rate-limit consultation. -/
theorem rateLimitCheck_not_mem_handleFrame (reg : List (String × ConnData))
    (db : Db) (cache : Nat → List String) (online : List String) (cid : String)
    (user : ConnData) (f : Frame) (a : String) :
    Effect.rateLimitCheck a ∉ handleFrame reg db cache online cid user f := by
  cases f with
  | heartbeat => simp [handleFrame]
  | joinRoom rid =>
      cases rid with
      | none => simp [handleFrame]
      | some n =>
          simp only [handleFrame]
          split
          · simp
          · split
            · simp
            · split
              · split
                · exact rateLimitCheck_not_mem_joinRoomBody db cache cid user n _ a
                · simp
              · exact rateLimitCheck_not_mem_joinRoomBody db cache cid user n _ a
  | roomMessage rid content =>
      cases rid with
      | none => simp [handleFrame]
      | some n =>
          simp only [handleFrame]
          split
          · simp
          · split
            · simp
            · split <;> simp
  | privateMessage target content =>
      cases target with
      | none => simp [handleFrame]
      | some tw =>
          simp only [handleFrame]
          split <;> simp
  | getOnline => simp [handleFrame]
  | stats => simp [handleFrame]
  | unknown t => simp [handleFrame]

/-- The rule loop run over a prefix of rules that all allow continues on the
remaining rules from the prefix's resulting store and accumulator. -/
theorem checkRulesAux_of_allowRun (now : ℚ) (pre : List RateLimitRule) :
    ∀ (st st₁ : Store) (acc acc₁ : RLInfo),
      allowRun now pre st acc = some (st₁, acc₁) →
      ∀ rest : List RateLimitRule,
        checkRulesAux now (pre ++ rest) st acc = checkRulesAux now rest st₁ acc₁ := by
  induction pre with
  | nil =>
      intro st st₁ acc acc₁ h rest
      simp only [allowRun, Option.some.injEq, Prod.mk.injEq] at h
      simp [h.1, h.2]
  | cons r rs ih =>
      intro st st₁ acc acc₁ h rest
      simp only [allowRun] at h
      by_cases he : (evalRule now r st).1
      · simp only [he, if_true] at h
        simpa [checkRulesAux, he] using ih _ _ _ _ h rest
      · simp [he] at h

/-! ## Claims -/

/-- C1: the claim fails on the code.  A connection that joined a room and then
had its transport closed is removed from the connection registry by
`remove_connection`, but its callback is still in the room channel's
subscriber list: `remove_connection` never touches
`RedisPubSubManager.subscriptions`. -/
theorem c1_counterexample :
    (removeConnection
        (joinSubscribe (addConnection ⟨[], []⟩ "c1" ⟨"walletA", []⟩) "room:1" "c1")
        "c1").conns.lookup "c1" = none
    ∧ "c1" ∈ channelSubscribers
        (removeConnection
          (joinSubscribe (addConnection ⟨[], []⟩ "c1" ⟨"walletA", []⟩) "room:1" "c1")
          "c1") "room:1" := by
  exact ⟨rfl, by decide⟩

/-- C1 (amended): when a connection's transport closes (or it logs out),
`remove_connection` synchronously removes it from the connection registry, but
the pub/sub subscriber lists are left entirely unchanged, so a channel the
connection joined retains its callback. -/
theorem c1_amended (s : WsState) (cid : String) :
    (removeConnection s cid).conns.lookup cid = none
    ∧ (removeConnection s cid).subs = s.subs
    ∧ ∀ ch, channelSubscribers (removeConnection s cid) ch = channelSubscribers s ch :=
  ⟨lookup_filter_ne_eq_none s.conns cid, rfl, fun _ => rfl⟩

/-- C2: the claim fails on the code.  A `room_message` frame from an
authorized member is fully executed — the database insert, cache write,
publish, member-stats update and AI trigger all happen — yet no rate-limit
check of any action type occurs anywhere in the handling. -/
theorem c2_counterexample :
    Effect.dbAddChatMessage 1 "walletA" "hi" ∈
      handleWebsocketMessage [("c1", ⟨"walletA", []⟩)] ⟨[], [⟨1, "walletA", true⟩]⟩
        (fun _ => []) [] "c1" ⟨"walletA", []⟩ (.roomMessage (some 1) "hi")
    ∧ ∀ a, Effect.rateLimitCheck a ∉
        handleWebsocketMessage [("c1", ⟨"walletA", []⟩)] ⟨[], [⟨1, "walletA", true⟩]⟩
          (fun _ => []) [] "c1" ⟨"walletA", []⟩ (.roomMessage (some 1) "hi") := by
  constructor
  · decide
  · intro a
    have h : handleWebsocketMessage [("c1", ⟨"walletA", []⟩)] ⟨[], [⟨1, "walletA", true⟩]⟩
        (fun _ => []) [] "c1" ⟨"walletA", []⟩ (.roomMessage (some 1) "hi") =
        [.heartbeatRefresh "walletA", .dbAddChatMessage 1 "walletA" "hi",
         .cacheStore 1 "hi", .publish "room:1" "hi",
         .dbUpdateMemberStats 1 "walletA", .aiTrigger 1 "hi"] := by decide
    rw [h]
    simp

/-- C2 (amended): the websocket message router performs no rate limiting at
all — handling any frame, of any declared type, never consults the rate
limiter, so no action is ever preceded by a rate-limit check and no
rate-limit denial reply exists on this path. -/
theorem c2_amended (reg : List (String × ConnData)) (db : Db)
    (cache : Nat → List String) (online : List String) (cid : String)
    (user : ConnData) (f : Frame) (a : String) :
    Effect.rateLimitCheck a ∉ handleWebsocketMessage reg db cache online cid user f := by
  unfold handleWebsocketMessage
  cases h : reg.lookup cid with
  | none => simp
  | some cd =>
      simp only [List.mem_cons, not_or]
      exact ⟨fun hc => Effect.noConfusion hc,
             rateLimitCheck_not_mem_handleFrame reg db cache online cid user f a⟩

/-- C3: evaluation of the presence code.  A single heartbeat at `t0 = 0` keeps
the actor online only until `t0 + 60` (the `setex` TTL), not until the
2-minute liveness threshold: at `t = 90` the actor is already reported
offline.  The sweep at `t = 121` finds nothing and emits no notification.  In
general, because every heartbeat key expires at most 60 seconds after it was
written while the sweep only acts on keys older than 120 seconds, the sweep's
offline-notification branch can never fire. -/
theorem c3_code_evaluation :
    getOnlineUsers (setUserHeartbeat [] "walletA" 0) 59 = ["walletA"]
    ∧ getOnlineUsers (setUserHeartbeat [] "walletA" 0) 90 = []
    ∧ heartbeatSweep (setUserHeartbeat [] "walletA" 0) 121 = ([], [])
    ∧ ∀ (hb : Heartbeats) (now : ℚ),
        (∀ e ∈ hb, e.2.2 ≤ e.2.1 + 60) →
        (heartbeatSweep hb now).2 = [] := by
  refine ⟨by norm_num [getOnlineUsers, setUserHeartbeat, aliveAt],
          by norm_num [getOnlineUsers, setUserHeartbeat, aliveAt],
          by norm_num [heartbeatSweep, setUserHeartbeat, aliveAt], ?_⟩
  intro hb now hTTL
  unfold heartbeatSweep
  simp only [List.map_eq_nil_iff]
  rw [List.filter_eq_nil_iff]
  intro e he
  have hlive := List.of_mem_filter he
  have hmem := List.mem_of_mem_filter he
  have h1 : now < e.2.2 := by simpa [aliveAt] using hlive
  have h2 : e.2.2 ≤ e.2.1 + 60 := hTTL e hmem
  simp only [decide_eq_true_eq, not_lt]
  linarith

/-- C3 witness: the dead-code conjunct applied to a concrete store written
with the 60-second TTL. -/
theorem c3_witness :
    (heartbeatSweep [("walletA", 5, 65)] 200).2 = [] :=
  c3_code_evaluation.2.2.2 [("walletA", 5, 65)] 200 (by norm_num)

/-- C7: the claim fails on the code.  A denied token-bucket check performs no
write at all: the `hset` is only executed on the allowed branch, so the bucket
keeps its old token count and old `last_refill` — the denied check does not
record its own accounting slot. -/
theorem c7_counterexample :
    (checkTokenBucket 1 1 1 (some (0, 0)) (1/2)).1 = false
    ∧ (checkTokenBucket 1 1 1 (some (0, 0)) (1/2)).2.2 = none
    ∧ (evalRule (1/2) ⟨1, 1, .tokenBucket, 1, "k"⟩
        (Store.update (fun _ => none) "k" (.tb 0 0))).2.2 "k" = some (.tb 0 0) := by
  refine ⟨?_, ?_, ?_⟩ <;>
    norm_num [checkTokenBucket, evalRule, Store.update, getTB, min_def]

/-- C7 (amended): a sliding-window check always records its own timestamp and
a fixed-window check always increments its bucket counter, regardless of the
decision; but a denied token-bucket check performs no write, leaving the
bucket state exactly as it was. -/
theorem c7_amended :
    (∀ (L : ℕ) (W : ℚ) (s : List ℚ) (now : ℚ),
        now ∈ (checkSlidingWindow L W s now).2.2)
    ∧ (∀ L ws c : ℕ, (checkFixedWindow L ws c).2.2 = c + 1)
    ∧ (∀ (L : ℕ) (W : ℚ) (B : ℕ) (b : Option (ℚ × ℚ)) (now : ℚ),
        (checkTokenBucket L W B b now).1 = false →
        (checkTokenBucket L W B b now).2.2 = none ∧
          tbStep L W B b now = (false, b)) := by
  refine ⟨?_, fun _ _ _ => rfl, ?_⟩
  · intro L W s now
    unfold checkSlidingWindow
    simp only
    split
    · assumption
    · exact List.mem_append_right _ (List.mem_singleton.mpr rfl)
  · intro L W B b now hfalse
    cases b with
    | none =>
        unfold checkTokenBucket at hfalse ⊢
        unfold tbStep checkTokenBucket
        simp only at hfalse ⊢
        split at hfalse
        · simp at hfalse
        · constructor
          · split
            · simp_all
            · rfl
          · split
            · simp_all
            · rfl
    | some p =>
        obtain ⟨tk, lr⟩ := p
        unfold checkTokenBucket at hfalse ⊢
        unfold tbStep checkTokenBucket
        simp only at hfalse ⊢
        split at hfalse
        · simp at hfalse
        · constructor
          · split
            · simp_all
            · rfl
          · split
            · simp_all
            · rfl

/-- C7 witness: the always-record conjunct at a concrete sliding-window
check, and the no-write conjunct at a concrete denied token-bucket check. -/
theorem c7_witness :
    (3 : ℚ) ∈ (checkSlidingWindow 1 10 [] 3).2.2
    ∧ ((checkTokenBucket 1 1 1 (some (0, 0)) (1/2)).2.2 = none ∧
        tbStep 1 1 1 (some (0, 0)) (1/2) = (false, some (0, 0))) :=
  ⟨c7_amended.1 1 10 [] 3,
   c7_amended.2.2 1 1 1 (some (0, 0)) (1/2)
     (by norm_num [checkTokenBucket, min_def])⟩

/-- C8: for every delivered message, the fan-out of `listen_for_messages`
invokes every currently subscribed callback of the channel, in subscription
order, each with the delivered channel and payload; a raising callback is
caught and logged, it neither stops delivery to the rest nor removes any
subscriber — the subscription map is unchanged. -/
theorem c8_fanout (subs : Subscriptions) (fails : String → Bool)
    (ch payload : String) (cbs : List String)
    (h : subs.lookup ch = some cbs) :
    (listenMessageStep subs fails ch payload).1 =
      cbs.map (fun cb =>
        { callback := cb, channel := ch, payload := payload, ok := !fails cb })
    ∧ (listenMessageStep subs fails ch payload).2 = subs := by
  unfold listenMessageStep
  rw [h]
  exact ⟨invokeCallbacks_eq_map fails ch payload cbs, rfl⟩

/-- C8 witness: a channel with three subscribers of which the middle one
raises — all three are invoked in order and the map is unchanged. -/
theorem c8_witness :
    (listenMessageStep [("room:1", ["a", "b", "c"])] (fun cb => cb == "b")
        "room:1" "hello").1 =
      ["a", "b", "c"].map (fun cb =>
        { callback := cb, channel := "room:1", payload := "hello",
          ok := !(cb == "b") })
    ∧ (listenMessageStep [("room:1", ["a", "b", "c"])] (fun cb => cb == "b")
        "room:1" "hello").2 = [("room:1", ["a", "b", "c"])] :=
  c8_fanout [("room:1", ["a", "b", "c"])] (fun cb => cb == "b") "room:1" "hello"
    ["a", "b", "c"] rfl

/-- C9: a `join_room` frame targeting an NFT-gated room with a nonempty
requirement list is granted only when the connection's NFT-holdings snapshot
intersects the requirement; when it does not intersect, the handling is
exactly the heartbeat refresh followed by the access-denied error reply — no
subscription, no membership insert, no other effect. -/
theorem c9_gating (reg : List (String × ConnData)) (db : Db)
    (cache : Nat → List String) (online : List String) (cid : String)
    (user cd : ConnData) (n : Nat) (room : ChatRoom)
    (hconn : reg.lookup cid = some cd)
    (hn : n ≠ 0)
    (hroom : findRoom db n = some room)
    (hgated : room.roomType = "nft_gated")
    (hreq : room.requiredNfts ≠ [])
    (hno : room.requiredNfts.any (fun nft => user.nftHoldings.contains nft) = false) :
    handleWebsocketMessage reg db cache online cid user (.joinRoom (some n)) =
      [Effect.heartbeatRefresh user.wallet,
       Effect.reply (.errAccessDenied room.requiredNfts)]
    ∧ ∀ (user2 : ConnData) (ch c : String),
        Effect.subscribeChannel ch c ∈
          handleWebsocketMessage reg db cache online cid user2 (.joinRoom (some n)) →
        ∃ nft ∈ room.requiredNfts, nft ∈ user2.nftHoldings := by
  constructor
  · unfold handleWebsocketMessage
    rw [hconn]
    simp only [handleFrame]
    rw [if_neg hn]
    simp only [hroom]
    rw [if_pos ⟨hgated, hreq⟩, if_neg (by rw [hno]; simp)]
  · intro user2 ch c hmem
    unfold handleWebsocketMessage at hmem
    rw [hconn] at hmem
    simp only [handleFrame] at hmem
    rw [if_neg hn] at hmem
    simp only [hroom] at hmem
    rw [if_pos ⟨hgated, hreq⟩] at hmem
    by_cases hacc :
        (room.requiredNfts.any fun nft => user2.nftHoldings.contains nft) = true
    · obtain ⟨nft, hnft, hholds⟩ := List.any_eq_true.mp hacc
      exact ⟨nft, hnft, by simpa using hholds⟩
    · rw [if_neg hacc] at hmem
      simp at hmem

/-- C9 witness: a gated room requiring an NFT the user does not hold — the
trace is exactly the heartbeat refresh and the access-denied reply. -/
theorem c9_witness :
    handleWebsocketMessage [("c1", ⟨"walletA", ["nftX"]⟩)]
        ⟨[⟨1, "nft_gated", ["nftY"], "vip"⟩], []⟩ (fun _ => []) [] "c1"
        ⟨"walletA", ["nftX"]⟩ (.joinRoom (some 1)) =
      [Effect.heartbeatRefresh "walletA",
       Effect.reply (.errAccessDenied ["nftY"])] :=
  (c9_gating [("c1", ⟨"walletA", ["nftX"]⟩)] ⟨[⟨1, "nft_gated", ["nftY"], "vip"⟩], []⟩
    (fun _ => []) [] "c1" ⟨"walletA", ["nftX"]⟩ ⟨"walletA", ["nftX"]⟩ 1
    ⟨1, "nft_gated", ["nftY"], "vip"⟩ rfl (by decide) rfl rfl (by decide) (by decide)).1

/-- C10: for a connection present in the registry, handling any inbound frame
— whatever its declared type, including unknown types and frames whose
handling ends in an error reply — begins by refreshing the actor's presence
heartbeat, before any dispatch on the frame type. -/
theorem c10_heartbeat_first (reg : List (String × ConnData)) (db : Db)
    (cache : Nat → List String) (online : List String) (cid : String)
    (user cd : ConnData) (f : Frame)
    (h : reg.lookup cid = some cd) :
    (handleWebsocketMessage reg db cache online cid user f).head? =
      some (Effect.heartbeatRefresh user.wallet) := by
  unfold handleWebsocketMessage
  rw [h]
  rfl

/-- C10 witness: an unknown frame type still refreshes the heartbeat first. -/
theorem c10_witness :
    (handleWebsocketMessage [("c1", ⟨"walletA", []⟩)] ⟨[], []⟩ (fun _ => []) []
        "c1" ⟨"walletA", []⟩ (.unknown "bogus")).head? =
      some (Effect.heartbeatRefresh "walletA") :=
  c10_heartbeat_first [("c1", ⟨"walletA", []⟩)] ⟨[], []⟩ (fun _ => []) [] "c1"
    ⟨"walletA", []⟩ ⟨"walletA", []⟩ (.unknown "bogus") rfl

/-- C4: the claim fails on the code.  With two sliding-window rules where the
first denies, `check_rate_limit` returns immediately: the second rule is
never evaluated — its key state does not record the check's timestamp (an
evaluated sliding-window rule always records it) — and the returned info is
the first denier's. -/
theorem c4_counterexample :
    (checkRateLimit
        [⟨1, 10, .slidingWindow, 1, "k1"⟩, ⟨1, 10, .slidingWindow, 1, "k2"⟩]
        (fun k => if k = "k1" then some (.sw [0])
                  else if k = "k2" then some (.sw []) else none) 1).1.1 = false
    ∧ (checkRateLimit
        [⟨1, 10, .slidingWindow, 1, "k1"⟩, ⟨1, 10, .slidingWindow, 1, "k2"⟩]
        (fun k => if k = "k1" then some (.sw [0])
                  else if k = "k2" then some (.sw []) else none) 1).1.2.retryAfter
        = some 10
    ∧ (checkRateLimit
        [⟨1, 10, .slidingWindow, 1, "k1"⟩, ⟨1, 10, .slidingWindow, 1, "k2"⟩]
        (fun k => if k = "k1" then some (.sw [0])
                  else if k = "k2" then some (.sw []) else none) 1).2 "k2"
        = some (.sw []) := by
  refine ⟨?_, ?_, ?_⟩ <;>
    norm_num [checkRateLimit, checkRulesAux, evalRule, checkSlidingWindow,
      swKeep, Store.update, mergeInfo, initialInfo, getSW] <;>
    decide

/-- C4 (amended): rules are evaluated in order; as soon as one denies,
`check_rate_limit` returns that rule's own info as the decision, with the
store as it stood right after evaluating the denying rule — the rules after
the denier are not evaluated and their key states are untouched (the result
does not depend on `post` at all). -/
theorem c4_amended (now : ℚ) (pre : List RateLimitRule) (r : RateLimitRule)
    (post : List RateLimitRule) (st st₁ : Store) (acc₁ : RLInfo)
    (hpre : allowRun now pre st initialInfo = some (st₁, acc₁))
    (hdeny : (evalRule now r st₁).1 = false) :
    checkRateLimit (pre ++ r :: post) st now =
      ((false, (evalRule now r st₁).2.1), (evalRule now r st₁).2.2) := by
  unfold checkRateLimit
  rw [checkRulesAux_of_allowRun now pre st st₁ initialInfo acc₁ hpre (r :: post)]
  unfold checkRulesAux
  simp [hdeny]

/-- C4 witness: one allowing rule, then a denying rule, then a third rule.
The decision is the denying rule's info and the third rule's key is never
created. -/
theorem c4_witness :
    (checkRateLimit
        [⟨2, 10, .slidingWindow, 2, "kA"⟩, ⟨1, 10, .slidingWindow, 1, "kD"⟩,
         ⟨5, 10, .slidingWindow, 5, "kP"⟩]
        (fun k => if k = "kD" then some (.sw [0]) else none) 1).1 =
      (false, { limit := 1, remaining := 0, retryAfter := some 10 })
    ∧ (checkRateLimit
        [⟨2, 10, .slidingWindow, 2, "kA"⟩, ⟨1, 10, .slidingWindow, 1, "kD"⟩,
         ⟨5, 10, .slidingWindow, 5, "kP"⟩]
        (fun k => if k = "kD" then some (.sw [0]) else none) 1).2 "kP" = none := by
  have h2 : checkRateLimit
      [⟨2, 10, .slidingWindow, 2, "kA"⟩, ⟨1, 10, .slidingWindow, 1, "kD"⟩,
       ⟨5, 10, .slidingWindow, 5, "kP"⟩]
      (fun k => if k = "kD" then some (.sw [0]) else none) 1 =
      ((false, (evalRule 1 ⟨1, 10, .slidingWindow, 1, "kD"⟩
          (Store.update (fun k => if k = "kD" then some (.sw [0]) else none)
            "kA" (.sw [1]))).2.1),
       (evalRule 1 ⟨1, 10, .slidingWindow, 1, "kD"⟩
          (Store.update (fun k => if k = "kD" then some (.sw [0]) else none)
            "kA" (.sw [1]))).2.2) :=
    c4_amended 1 [⟨2, 10, .slidingWindow, 2, "kA"⟩]
      ⟨1, 10, .slidingWindow, 1, "kD"⟩ [⟨5, 10, .slidingWindow, 5, "kP"⟩]
      (fun k => if k = "kD" then some (.sw [0]) else none)
      (Store.update (fun k => if k = "kD" then some (.sw [0]) else none) "kA" (.sw [1]))
      { limit := 2, remaining := 1, retryAfter := none } rfl
      (by simp [evalRule, checkSlidingWindow, swKeep, Store.update, getSW_some_sw])
  rw [h2]
  constructor
  · simp [evalRule, checkSlidingWindow, swKeep, Store.update, getSW_some_sw]
  · simp [evalRule, checkSlidingWindow, swKeep, Store.update, getSW_some_sw]

/-- The token-bucket runner distributes over list concatenation. -/
theorem tbRun_append (L : ℕ) (W : ℚ) (B : ℕ) (l1 l2 : List ℚ) :
    ∀ s, tbRun L W B s (l1 ++ l2) =
      ((tbRun L W B s l1).1 ++ (tbRun L W B (tbRun L W B s l1).2 l2).1,
       (tbRun L W B (tbRun L W B s l1).2 l2).2) := by
  induction l1 with
  | nil => intro s; simp [tbRun]
  | cons t ts ih => intro s; simp [tbRun, ih]

/-- First check on an absent bucket: initialize with `burst_limit - 1` tokens
and allow (the initialization itself consumes the first token). -/
theorem tbStep_none (L : ℕ) (W : ℚ) (B : ℕ) (t0 : ℚ) (hB : 1 ≤ B) :
    tbStep L W B none t0 = (true, some ((B : ℚ) - 1, t0)) := by
  have h1 : (1 : ℚ) ≤ (B : ℚ) := by exact_mod_cast hB
  unfold tbStep checkTokenBucket
  rw [if_pos (by linarith)]

/-- A check at the same instant as the last refill with `1 ≤ x ≤ B` stored
tokens: no refill accrues, one token is consumed, the check is allowed. -/
theorem tbStep_same_time_allowed (L : ℕ) (W : ℚ) (B : ℕ) (x t0 : ℚ)
    (hx : x ≤ (B : ℚ)) (h1 : 1 ≤ x) :
    tbStep L W B (some (x, t0)) t0 = (true, some (x - 1, t0)) := by
  unfold tbStep checkTokenBucket
  simp only [sub_self, zero_mul, add_zero, min_eq_right hx]
  rw [if_pos (by linarith)]

/-- A check at the same instant with an empty bucket is denied and writes
nothing: the bucket state is unchanged. -/
theorem tbStep_empty_denied (L : ℕ) (W : ℚ) (B : ℕ) (t0 : ℚ) :
    tbStep L W B (some (0, t0)) t0 = (false, some (0, t0)) := by
  have h0 : (0 : ℚ) ≤ (B : ℚ) := by positivity
  unfold tbStep checkTokenBucket
  simp only [sub_self, zero_mul, add_zero, min_eq_right h0]
  rw [if_neg (by norm_num)]

/-- After waiting exactly `window / limit` seconds on an empty bucket, the
continuous refill has restored exactly one token, so one further check is
allowed and leaves the bucket empty again. -/
theorem tbStep_refill_one (L : ℕ) (W : ℚ) (B : ℕ) (t0 : ℚ)
    (hL : 1 ≤ L) (hB : 1 ≤ B) (hW : 0 < W) :
    tbStep L W B (some (0, t0)) (t0 + W / L) = (true, some (0, t0 + W / L)) := by
  have hL0 : ((L : ℚ)) ≠ 0 := by
    have : (1 : ℚ) ≤ (L : ℚ) := by exact_mod_cast hL
    linarith
  have hW0 : W ≠ 0 := ne_of_gt hW
  have hone : (t0 + W / L - t0) * ((L : ℚ) / W) = 1 := by
    field_simp
    ring
  have hB1 : (1 : ℚ) ≤ (B : ℚ) := by exact_mod_cast hB
  unfold tbStep checkTokenBucket
  simp only [hone, zero_add, min_eq_right hB1]
  rw [if_pos (by norm_num)]
  norm_num

/-- A burst of `n` checks at the same instant with `n ≤ x ≤ B` stored tokens
all succeed, each consuming one token. -/
theorem tbRun_burst (L : ℕ) (W : ℚ) (B : ℕ) (t0 : ℚ) :
    ∀ (n : ℕ) (x : ℚ), (n : ℚ) ≤ x → x ≤ (B : ℚ) →
      tbRun L W B (some (x, t0)) (List.replicate n t0) =
        (List.replicate n true, some (x - n, t0)) := by
  intro n
  induction n with
  | zero =>
      intro x _ _
      simp [tbRun]
  | succ k ih =>
      intro x hn hB
      have hk1 : (1 : ℚ) ≤ x := by
        have : ((k : ℚ) + 1) ≤ x := by push_cast at hn; linarith
        have hk0 : (0 : ℚ) ≤ (k : ℚ) := by positivity
        linarith
      rw [List.replicate_succ]
      simp only [tbRun, tbStep_same_time_allowed L W B x t0 hB hk1]
      rw [ih (x - 1) (by push_cast at hn ⊢; linarith) (by linarith)]
      rw [show x - 1 - (k : ℚ) = x - ((k + 1 : ℕ) : ℚ) by push_cast; ring]
      rw [List.replicate_succ true k]

/-- Whenever a token-bucket check performs a write, the written token count is
at most `burst_limit - 1`. -/
theorem checkTokenBucket_write_le (L : ℕ) (W : ℚ) (B : ℕ)
    (b : Option (ℚ × ℚ)) (now tk lr : ℚ)
    (h : (checkTokenBucket L W B b now).2.2 = some (tk, lr)) :
    tk ≤ (B : ℚ) - 1 := by
  cases b with
  | none =>
      simp only [checkTokenBucket] at h
      split at h
      · simp only [Option.some.injEq, Prod.mk.injEq] at h
        linarith [h.1]
      · simp at h
  | some p =>
      obtain ⟨a, b0⟩ := p
      simp only [checkTokenBucket] at h
      split at h
      · simp only [Option.some.injEq, Prod.mk.injEq] at h
        have hmin : min (B : ℚ) (a + (now - b0) * ((L : ℚ) / W)) ≤ (B : ℚ) :=
          min_le_left _ _
        linarith [h.1]
      · simp at h

/-- C6: from a fresh key, a burst of `burst_limit` checks at one instant all
succeed, the next is denied, after waiting `window / limit` seconds exactly
one more succeeds and the one after it is denied again; moreover the stored
token count can never exceed `burst_limit` (an allowed check stores at most
`burst_limit - 1` tokens, a denied check stores nothing). -/
theorem c6_token_bucket (L B : ℕ) (W t0 : ℚ)
    (hL : 1 ≤ L) (hB : 1 ≤ B) (hW : 0 < W) :
    tbRun L W B none (List.replicate (B + 1) t0 ++ [t0 + W / L, t0 + W / L]) =
      (List.replicate B true ++ [false, true, false], some (0, t0 + W / L))
    ∧ (∀ (s : Option (ℚ × ℚ)) (now tk lr : ℚ),
        (∀ a b, s = some (a, b) → a ≤ (B : ℚ)) →
        (tbStep L W B s now).2 = some (tk, lr) → tk ≤ (B : ℚ)) := by
  constructor
  · obtain ⟨B', rfl⟩ : ∃ B', B = B' + 1 :=
      ⟨B - 1, (Nat.succ_pred_eq_of_pos hB).symm⟩
    have hlist : List.replicate (B' + 1 + 1) t0 ++ [t0 + W / L, t0 + W / L]
        = t0 :: (List.replicate B' t0 ++ [t0, t0 + W / L, t0 + W / L]) := by
      rw [List.replicate_succ, List.replicate_succ']
      simp
    rw [hlist]
    simp only [tbRun]
    rw [tbStep_none L W (B' + 1) t0 hB]
    rw [tbRun_append L W (B' + 1) (List.replicate B' t0)
      [t0, t0 + W / L, t0 + W / L]]
    rw [tbRun_burst L W (B' + 1) t0 B' (((B' + 1 : ℕ) : ℚ) - 1)
      (by push_cast; linarith) (by push_cast; linarith)]
    rw [show ((B' + 1 : ℕ) : ℚ) - 1 - (B' : ℚ) = 0 by push_cast; ring]
    simp only [tbRun, tbStep_empty_denied L W (B' + 1) t0,
      tbStep_refill_one L W (B' + 1) t0 hL hB hW,
      tbStep_empty_denied L W (B' + 1) (t0 + W / L)]
    rw [List.replicate_succ, List.cons_append]
  · intro s now tk lr hbound hwrite
    have hB1 : (B : ℚ) - 1 ≤ (B : ℚ) := by linarith
    rcases hw : (checkTokenBucket L W B s now).2.2 with _ | ⟨a0, b0⟩
    · have hs : (tbStep L W B s now).2 = s := by
        simp only [tbStep, hw]
      rw [hs] at hwrite
      exact hbound tk lr hwrite
    · have hs : (tbStep L W B s now).2 = some (a0, b0) := by
        simp only [tbStep, hw]
      rw [hs] at hwrite
      simp only [Option.some.injEq, Prod.mk.injEq] at hwrite
      have hle := checkTokenBucket_write_le L W B s now a0 b0 hw
      rw [← hwrite.1]
      linarith

/-- C6 witness: limit 1 per 2 seconds, burst 2, starting at time 0 — checks
at times 0, 0, 0, 2, 2 give allowed, allowed, denied, allowed, denied. -/
theorem c6_witness :
    tbRun 1 2 2 none (List.replicate 3 0 ++ [0 + 2 / 1, 0 + 2 / 1]) =
      (List.replicate 2 true ++ [false, true, false], some (0, 0 + 2 / 1)) :=
  (c6_token_bucket 1 2 2 0 (by norm_num) (by norm_num) (by norm_num)).1

/-- Unfolding `spanCount` over the head of a run. -/
theorem spanCount_cons (a W : ℚ) (p : ℚ × Bool) (ps : List (ℚ × Bool)) :
    spanCount a W (p :: ps) = spanCount a W ps +
      (if p.2 && decide (a ≤ p.1) && decide (p.1 < a + W) then 1 else 0) := by
  simp [spanCount, List.countP_cons]

/-- Checks whose timestamps all lie outside the span contribute nothing to the
span count, whatever their decisions. -/
theorem spanCount_eq_zero_of_out (L : ℕ) (W a : ℚ) :
    ∀ (ts s : List ℚ), (∀ u ∈ ts, ¬(a ≤ u ∧ u < a + W)) →
      spanCount a W (swRun L W s ts) = 0 := by
  intro ts
  induction ts with
  | nil => intro s _; simp [swRun, spanCount]
  | cons t ts ih =>
      intro s hout
      simp only [swRun]
      rw [spanCount_cons]
      rw [ih _ fun u hu => hout u (List.mem_cons_of_mem _ hu)]
      rcases not_and_or.mp (hout t (List.mem_cons_self t ts)) with h | h
      · simp [h]
      · simp [h]

/-- Span bound for runs from an arbitrary prior state: the number of allowed
checks with timestamps in `[a, a + W)` is at most `limit` minus the number of
still-relevant prior events at or after `a`.  The prior events are
nonnegative and strictly older than every check time; the check times are
strictly increasing and nonnegative. -/
theorem swRun_span_aux (L : ℕ) (W a : ℚ) :
    ∀ (ts s : List ℚ),
      List.Pairwise (· < ·) ts →
      (∀ t ∈ ts, 0 ≤ t) →
      (∀ x ∈ s, 0 ≤ x) →
      (∀ x ∈ s, ∀ u ∈ ts, x < u) →
      spanCount a W (swRun L W s ts) ≤
        L - s.countP (fun x => decide (a ≤ x)) := by
  intro ts
  induction ts with
  | nil =>
      intro s _ _ _ _
      simp [swRun, spanCount]
  | cons t ts ih =>
      intro s hpw hts hs hbound
      have hpair := List.pairwise_cons.mp hpw
      have hlt : ∀ u ∈ ts, t < u := hpair.1
      have ht0 : 0 ≤ t := hts t (List.mem_cons_self t ts)
      have hts' : ∀ u ∈ ts, 0 ≤ u := fun u hu => hts u (List.mem_cons_of_mem _ hu)
      by_cases haw : a + W ≤ t
      · have hall : ∀ u ∈ t :: ts, ¬(a ≤ u ∧ u < a + W) := by
          intro u hu
          rcases List.mem_cons.mp hu with rfl | hu
          · exact fun hc => absurd hc.2 (not_lt.mpr haw)
          · exact fun hc => absurd hc.2 (not_lt.mpr (le_trans haw (le_of_lt (hlt u hu))))
        rw [spanCount_eq_zero_of_out L W a (t :: ts) s hall]
        exact Nat.zero_le _
      · have hnotmem : t ∉ s.filter (swKeep t W) := fun hmem =>
          lt_irrefl t (hbound t (List.mem_of_mem_filter hmem) t (List.mem_cons_self t ts))
        have hs' : ∀ x ∈ s.filter (swKeep t W) ++ [t], 0 ≤ x := by
          intro x hx
          rcases List.mem_append.mp hx with hx | hx
          · exact hs x (List.mem_of_mem_filter hx)
          · rw [List.mem_singleton.mp hx]; exact ht0
        have hbound' : ∀ x ∈ s.filter (swKeep t W) ++ [t], ∀ u ∈ ts, x < u := by
          intro x hx u hu
          rcases List.mem_append.mp hx with hx | hx
          · exact hbound x (List.mem_of_mem_filter hx) u (List.mem_cons_of_mem _ hu)
          · rw [List.mem_singleton.mp hx]; exact hlt u hu
        have hrest := ih (s.filter (swKeep t W) ++ [t]) hpair.2 hts' hs' hbound'
        simp only [swRun, checkSlidingWindow]
        rw [if_neg hnotmem]
        rw [spanCount_cons]
        by_cases hta : a ≤ t
        · have htw : t < a + W := not_le.mp haw
          have hF1 : (s.filter (swKeep t W)).countP (fun x => decide (a ≤ x))
              = s.countP (fun x => decide (a ≤ x)) := by
            rw [List.countP_filter]
            apply List.countP_congr
            intro x hx
            by_cases hax : a ≤ x
            · have hkeep : swKeep t W x = true := by
                unfold swKeep
                have hgt : t - W < x := by linarith
                simp [hgt]
              simp [hax, hkeep]
            · simp [hax]
          have hF2 : ((s.filter (swKeep t W)) ++ [t]).countP (fun x => decide (a ≤ x))
              = s.countP (fun x => decide (a ≤ x)) + 1 := by
            rw [List.countP_append, hF1]
            simp [hta]
          have hF3 : s.countP (fun x => decide (a ≤ x))
              ≤ (s.filter (swKeep t W)).length := by
            rw [← hF1]
            exact List.countP_le_length _
          rw [hF2] at hrest
          by_cases hcount : (s.filter (swKeep t W)).length < L
          · have hb : (decide ((s.filter (swKeep t W)).length < L)
                && decide (a ≤ t) && decide (t < a + W)) = true := by
              simp [hcount, hta, htw]
            rw [hb]
            simp only [if_true]
            omega
          · have hb : (decide ((s.filter (swKeep t W)).length < L)
                && decide (a ≤ t) && decide (t < a + W)) = false := by
              simp [hcount]
            rw [hb]
            simp only [Bool.false_eq_true, if_false, add_zero]
            omega
        · have hm : s.countP (fun x => decide (a ≤ x)) = 0 := by
            rw [List.countP_eq_zero]
            intro x hx
            have hxt := hbound x hx t (List.mem_cons_self t ts)
            simp only [decide_eq_true_eq]
            intro hax
            exact absurd (lt_of_le_of_lt hax (lt_of_lt_of_le hxt (le_of_not_le hta)))
              (lt_irrefl a)
          have hb : (decide ((s.filter (swKeep t W)).length < L)
              && decide (a ≤ t) && decide (t < a + W)) = false := by
            simp [hta]
          rw [hb, hm]
          simp only [Bool.false_eq_true, if_false, add_zero, Nat.sub_zero]
          exact le_trans hrest (Nat.sub_le _ _)

/-- C5: the claim fails on the code as stated.  First, with limit 1 and
window 10, checks at times 0 and 10 are both allowed although both lie within
the closed 10-second span `[0, 10]`: the purge removes an entry that is
exactly `window` old, so a span touching both endpoints holds `limit + 1`
allowed checks.  Second, with limit 2 and window 10, three checks at the same
timestamp 5 (a non-decreasing sequence) are all allowed: the `zadd` member is
`str(now)`, so same-timestamp events collapse onto one sorted-set entry and
the count stays below the limit. -/
theorem c5_counterexample :
    (List.Chain' (· ≤ ·) [(0 : ℚ), 10]
      ∧ spanCountClosed 0 10 (swRun 1 10 [] [0, 10]) = 2)
    ∧ (List.Chain' (· ≤ ·) [(5 : ℚ), 5, 5]
      ∧ spanCount 5 10 (swRun 2 10 [] [5, 5, 5]) = 3) := by
  constructor
  · constructor
    · simp [List.chain'_cons]
    · simp [swRun, checkSlidingWindow, swKeep, spanCountClosed, List.countP_cons]
  · constructor
    · simp [List.chain'_cons]
    · simp [swRun, checkSlidingWindow, swKeep, spanCount, List.countP_cons]

/-- C5 (amended): under a sliding-window rule, for every sequence of checks
with strictly increasing nonnegative timestamps starting from a fresh key, at
most `limit` checks whose timestamps lie in any half-open window-length span
`[a, a + W)` return allowed. -/
theorem c5_amended (L : ℕ) (W a : ℚ) (ts : List ℚ)
    (hpw : List.Pairwise (· < ·) ts) (hts : ∀ t ∈ ts, 0 ≤ t) :
    spanCount a W (swRun L W [] ts) ≤ L := by
  have h := swRun_span_aux L W a ts [] hpw hts (by simp) (by simp)
  simpa using h

/-- C5 witness: three strictly increasing checks against limit 1, window 10 —
at most one allowed check falls in the span starting at 0. -/
theorem c5_witness :
    List.Pairwise (· < ·) [(0 : ℚ), 1, 2]
    ∧ spanCount 0 10 (swRun 1 10 [] [0, 1, 2]) ≤ 1 :=
  ⟨by norm_num [List.pairwise_cons],
   c5_amended 1 10 0 [0, 1, 2] (by norm_num [List.pairwise_cons])
     (by norm_num)⟩

end Socratic
